import Mathlib

/-
Verification of the FluidDensityPropellerSimulator core (src/main.rs).

The simulator's per-tick systems are embedded shallowly:
machine floats (f32) are modelled as real numbers; the trial controller,
whose arithmetic is exact decimal bookkeeping, is modelled over the
rationals so that concrete runs can be evaluated; the random number
generator is modelled by its documented contract (a normalized sample
u in the half-open interval from 0 to 1, scaled affinely onto the
requested half-open range, as the rand crate's uniform float sampler
does).
-/

set_option maxHeartbeats 1600000
set_option maxRecDepth 100000

/-- 3-component real vector, modelling bevy `Vec3` and nalgebra `Vector3`. -/
structure V3 where
  x : ℝ
  y : ℝ
  z : ℝ

/-- Component-wise sum. -/
noncomputable def V3.addv (a b : V3) : V3 := ⟨a.x + b.x, a.y + b.y, a.z + b.z⟩

/-- Component-wise difference (`nalgebra` vector subtraction). -/
noncomputable def V3.subv (a b : V3) : V3 := ⟨a.x - b.x, a.y - b.y, a.z - b.z⟩

/-- Scalar multiple. -/
noncomputable def V3.smul (k : ℝ) (a : V3) : V3 := ⟨k * a.x, k * a.y, k * a.z⟩

/-- Dot product (`nalgebra::Vector3::dot`). -/
noncomputable def V3.dot (a b : V3) : ℝ := a.x * b.x + a.y * b.y + a.z * b.z

/-- Cross product (`nalgebra::Vector3::cross`). -/
noncomputable def V3.cross (a b : V3) : V3 :=
  ⟨a.y * b.z - a.z * b.y, a.z * b.x - a.x * b.z, a.x * b.y - a.y * b.x⟩

/-- `f32::to_radians`: degrees to radians. -/
noncomputable def toRad (d : ℝ) : ℝ := d * (Real.pi / 180)

/-- `f32::to_degrees`: radians to degrees. -/
noncomputable def toDeg (r : ℝ) : ℝ := r * (180 / Real.pi)

/-- The `Particle` component together with its `Transform` translation. -/
structure Particle where
  translation : V3
  velocity : V3
  mass : ℝ

/-- The `Propeller` component (the blade). -/
structure Propeller where
  rotation_z : ℝ
  pitch : ℝ
  angular_v : ℝ
  old_rotation_z : ℝ
  mass : ℝ
  total_vertical_impulse : ℝ

/-- `distance_between` from src/main.rs: Euclidean distance of two translations. -/
noncomputable def distance_between (a b : V3) : ℝ :=
  Real.sqrt ((a.x - b.x) ^ 2 + (a.y - b.y) ^ 2 + (a.z - b.z) ^ 2)

/-- One axis of `wall_collisions`: if the absolute coordinate exceeds 5.0,
clamp it sign-preservingly to 5.0 and negate the velocity component. -/
noncomputable def reflect_axis (c v : ℝ) : ℝ × ℝ :=
  if |c| > 5 then ((c / |c|) * 5, v * (-1)) else (c, v)

/-- `wall_collisions` acting on one particle: the three axes independently. -/
noncomputable def wall_collisions (p : Particle) : Particle :=
  let rx := reflect_axis p.translation.x p.velocity.x
  let ry := reflect_axis p.translation.y p.velocity.y
  let rz := reflect_axis p.translation.z p.velocity.z
  { translation := ⟨rx.1, ry.1, rz.1⟩, velocity := ⟨rx.2, ry.2, rz.2⟩, mass := p.mass }

/-- The wall reflector as the spec sentence of claim C4 words it: threshold
and clamp value 5.1 instead of the source's 5.0. -/
noncomputable def spec_reflect_axis (c v : ℝ) : ℝ × ℝ :=
  if |c| > 5.1 then ((c / |c|) * 5.1, v * (-1)) else (c, v)

/-- Position after the overlap push-back of `compare_particles`:
`translation += -1.0 * velocity * dt`. -/
noncomputable def pushed_translation (p : Particle) (dt : ℝ) : V3 :=
  ⟨p.translation.x + (-1) * p.velocity.x * dt,
   p.translation.y + (-1) * p.velocity.y * dt,
   p.translation.z + (-1) * p.velocity.z * dt⟩

/-- One inner-loop iteration of `compare_particles` on indices `i`, `j`:
if the particles are within 0.2 of each other, push both back along their
own velocity and swap the velocity vectors. -/
noncomputable def pairStep (dt : ℝ) (s : List Particle) (i j : ℕ) : List Particle :=
  match s[i]?, s[j]? with
  | some a, some b =>
      if distance_between a.translation b.translation ≤ 0.2 then
        (s.set i ⟨pushed_translation a dt, b.velocity, a.mass⟩).set j
          ⟨pushed_translation b dt, a.velocity, b.mass⟩
      else s
  | _, _ => s

/-- `compare_particles`: the double loop over all unordered index pairs
`(i, i+1+j)`, threading the particle list through each resolution. -/
noncomputable def compare_particles (dt : ℝ) (s : List Particle) : List Particle :=
  let n := s.length
  (List.range n).foldl
    (fun acc i =>
      (List.range (n - (i + 1))).foldl (fun acc2 j => pairStep dt acc2 i (i + 1 + j)) acc)
    s

/-- The multiset of particle velocity vectors. -/
noncomputable def velocityMultiset (s : List Particle) : Multiset V3 :=
  (s.map Particle.velocity : List V3)

/-- Linear momentum of one particle, `mass * velocity`. -/
noncomputable def momentum (p : Particle) : V3 := V3.smul p.mass p.velocity

/-- The rand crate's `gen_range(lo..hi)` for floats: a normalized sample
`u` in the half-open unit interval is mapped affinely onto `lo..hi`
(lower bound inclusive, upper bound exclusive). Real-number version. -/
noncomputable def gen_range (lo hi u : ℝ) : ℝ := lo + u * (hi - lo)

/-- The reaction-torque stage of `blade_collisions` (src/main.rs lines
293-305): zero the impulse's vertical component, cross the horizontal
moment arm with it, dot with `unit_vertial = (0,-1,0)`, divide by the
rod moment of inertia `(1/3) * mass * 16`, and flip the sign. -/
noncomputable def reaction_delta_angular_v (t impulse_vector : V3) (mass : ℝ) : ℝ :=
  let iv : V3 := ⟨impulse_vector.x, 0, impulse_vector.z⟩
  let moment_arm : V3 := ⟨t.x, 0, t.z⟩
  let angular_impulse := V3.cross moment_arm iv
  let unit_vertial : V3 := ⟨0, -1, 0⟩
  let angular_impulse_mag := V3.dot angular_impulse unit_vertial
  let moi := (1 / 3) * mass * 16
  let delta_angular_v := -angular_impulse_mag / moi
  delta_angular_v

/-- The torque reaction as the spec sentence of claim C3 words it: the
vertical (y) component of the cross product of the horizontal moment arm
with the horizontal-only impulse, divided by I, with a sign flip applied
to that quotient. -/
noncomputable def spec_reaction_delta (t impulse_vector : V3) (mass : ℝ) : ℝ :=
  -((V3.cross ⟨t.x, 0, t.z⟩ ⟨impulse_vector.x, 0, impulse_vector.z⟩).y
    / ((1 / 3) * mass * 16))

/-- The elastic impulse of `blade_collisions` on a hit: the blade's local
surface normal from its rotation and pitch, the blade surface velocity at
the particle's radius, the relative velocity projected on the normal, and
the reduced-mass elastic-impulse formula along the normal. -/
noncomputable def blade_impulse_vector (propeller : Propeller) (particle : Particle) : V3 :=
  let unit_parallel : V3 :=
    ⟨Real.sin (toRad propeller.rotation_z), 0, Real.cos (toRad propeller.rotation_z)⟩
  let down_value := -Real.sin (toRad propeller.pitch)
  let out_value := Real.sqrt (1 - down_value * down_value)
  let unit_tilt : V3 :=
    ⟨Real.sin (toRad (propeller.rotation_z - 90)) * out_value, down_value,
     Real.cos (toRad (propeller.rotation_z - 90)) * out_value⟩
  let unit_normal := V3.cross unit_parallel unit_tilt
  let particle_distance := distance_between particle.translation ⟨0, 0, 0⟩
  let propeller_speed := propeller.angular_v * particle_distance / 360
  let propeller_velocity :=
    V3.smul propeller_speed
      ⟨Real.sin (toRad (propeller.rotation_z + 90)), 0,
       Real.cos (toRad (propeller.rotation_z + 90))⟩
  let net_velocity := V3.subv particle.velocity propeller_velocity
  let scalar := V3.dot net_velocity unit_normal
  V3.smul (2 * propeller.mass * particle.mass * scalar
    / (propeller.mass + particle.mass)) unit_normal

/-- The body of `blade_collisions` for one propeller and one particle.
`u` is the RNG sample triple used if the particle is struck and relocated. -/
noncomputable def blade_collisions_step (propeller : Propeller) (particle : Particle)
    (u : V3) : Propeller × Particle :=
  if |particle.translation.y| < 0.5 * Real.sin (toRad propeller.pitch) then
    if distance_between particle.translation ⟨0, 0, 0⟩ < 4 then
      let theta0 := Real.arctan (particle.translation.x / particle.translation.z)
      let theta :=
        if particle.translation.z < 0 then theta0 + 3.14159265
        else if theta0 < 0 then theta0 + 6.28315307
        else theta0
      let angle_modifier :=
        Real.arctan (Real.cos (toRad propeller.pitch)
          / (2 * distance_between particle.translation ⟨0, 0, 0⟩))
      if theta < toRad propeller.rotation_z + angle_modifier ∧
          toRad propeller.old_rotation_z - angle_modifier < theta then
        let impulse_vector := blade_impulse_vector propeller particle
        ({ propeller with
            total_vertical_impulse := propeller.total_vertical_impulse + impulse_vector.y,
            angular_v := propeller.angular_v +
              reaction_delta_angular_v particle.translation impulse_vector propeller.mass },
         { particle with
            translation :=
              ⟨gen_range (-5) 5 u.x, gen_range (-5) 5 u.y, gen_range (-5) 5 u.z⟩ })
      else (propeller, particle)
    else (propeller, particle)
  else (propeller, particle)

/-- `blade_collisions`: fold of `blade_collisions_step` over the particle
list, threading the propeller state; `us n` is the RNG sample for the
`n`-th particle. -/
noncomputable def blade_collisions (propeller : Propeller) (ps : List Particle)
    (us : ℕ → V3) (n : ℕ) : Propeller × List Particle :=
  match ps with
  | [] => (propeller, [])
  | p :: rest =>
      let r1 := blade_collisions_step propeller p (us n)
      let r2 := blade_collisions r1.1 rest us (n + 1)
      (r2.1, r1.2 :: r2.2)

/-- `update_rectangle_rotation` on the propeller record (the derived
render pose is not part of the dynamic state). -/
noncomputable def update_rectangle_rotation (rect : Propeller) (dt : ℝ) : Propeller :=
  let rot := if rect.rotation_z ≥ 360 then rect.rotation_z - 360 else rect.rotation_z
  let moi := (1 / 3) * rect.mass * 16
  let av := rect.angular_v + (50000 * dt) / toDeg (moi * toRad rect.angular_v)
  { rect with rotation_z := rot + av * dt, old_rotation_z := rot, angular_v := av }

/-- The angular-velocity drive update as the spec sentence of claim C2
words it: denominator `I * radians(angular_velocity)`, with no conversion
of the product back to degrees. -/
noncomputable def spec_update_angular_v (rect : Propeller) (dt : ℝ) : ℝ :=
  rect.angular_v + (50000 * dt) / (((1 / 3) * rect.mass * 16) * toRad rect.angular_v)

/-- Rational-valued propeller record, for the exactly-evaluable trial
controller model. -/
structure PropQ where
  rotation_z : ℚ
  pitch : ℚ
  angular_v : ℚ
  old_rotation_z : ℚ
  mass : ℚ
  total_vertical_impulse : ℚ
deriving DecidableEq

/-- Rational-valued particle record for the controller model. -/
structure PartQ where
  translation : ℚ × ℚ × ℚ
  velocity : ℚ × ℚ × ℚ
  mass : ℚ
deriving DecidableEq

/-- The process-wide state the controller owns: elapsed trial time, trial
index, data buffer, the propeller, the particle set, the CSV rows written
so far, the count of error-stream reports, and whether the process exited. -/
structure SimState where
  total_time : ℚ
  trial : ℕ
  data : List ℚ
  prop : PropQ
  particles : List PartQ
  log : List (List ℚ)
  errors : ℕ
  exited : Bool
deriving DecidableEq

/-- Rational version of the rand crate's `gen_range(lo..hi)`. -/
def gen_rangeQ (lo hi u : ℚ) : ℚ := lo + u * (hi - lo)

/-- The controller's trial-boundary re-randomization of one particle:
position coordinates from `gen_range(-5.0..5.0)`, velocity components
from `gen_range(-1.0..1.0)`; `us 0 .. us 5` are the six normalized
RNG samples consumed. -/
def rerand_particle (p : PartQ) (us : ℕ → ℚ) : PartQ :=
  { p with
    translation := (gen_rangeQ (-5) 5 (us 0), gen_rangeQ (-5) 5 (us 1), gen_rangeQ (-5) 5 (us 2)),
    velocity := (gen_rangeQ (-1) 1 (us 3), gen_rangeQ (-1) 1 (us 4), gen_rangeQ (-1) 1 (us 5)) }

/-- Re-randomize every particle, consuming six RNG samples per particle. -/
def rerandomize : List PartQ → (ℕ → ℚ) → List PartQ
  | [], _ => []
  | p :: rest, us => rerand_particle p us :: rerandomize rest (fun n => us (n + 6))

/-- One tick of `controller`. `csvOk` is whether `append_to_csv`
succeeds this tick; `us` feeds the re-randomization. `std::process::exit(0)`
is modelled by the absorbing `exited` flag: an exited state processes no
further ticks. -/
def controller (dt : ℚ) (csvOk : Bool) (us : ℕ → ℚ) (s : SimState) : SimState :=
  if s.exited then s
  else
    let tt := s.total_time + dt
    if 10 ≤ tt then
      let trial1 := s.trial + 1
      let data1 := s.data ++ [s.prop.total_vertical_impulse]
      let prop1 := { s.prop with
        rotation_z := 0, old_rotation_z := 0, angular_v := 20, total_vertical_impulse := 0 }
      if trial1 = 8 then
        let avg := (data1.foldl (fun acc d => acc + d) 0) / 8
        let data2 := data1 ++ [avg]
        let log2 := if csvOk then s.log ++ [data2] else s.log
        let errors2 := if csvOk then s.errors else s.errors + 1
        let prop2 : PropQ := { prop1 with pitch := prop1.pitch + 5 }
        if prop2.pitch = 85 then
          { s with total_time := 0, trial := 0, data := [], prop := prop2,
                   log := log2, errors := errors2, exited := true }
        else
          { s with total_time := 0, trial := 0, data := [], prop := prop2,
                   log := log2, errors := errors2,
                   particles := rerandomize s.particles us }
      else
        { s with total_time := 0, trial := trial1, data := data1, prop := prop1,
                 particles := rerandomize s.particles us }
    else { s with total_time := tt }

/-- The startup state: pitch 45, angular velocity 20, all counters zero.
The 400 startup particles are irrelevant to the pitch sweep, so the
particle list is left empty. -/
def initState : SimState :=
  { total_time := 0, trial := 0, data := [],
    prop := { rotation_z := 0, pitch := 45, angular_v := 20, old_rotation_z := 0,
              mass := 5, total_vertical_impulse := 0 },
    particles := [], log := [], errors := 0, exited := false }

/-- Iterated controller ticks from the startup state; `dts`, `oks` and
`uss` are the per-tick delta-times, CSV write outcomes and RNG streams. -/
def controller_run (dts : ℕ → ℚ) (oks : ℕ → Bool) (uss : ℕ → ℕ → ℚ) : ℕ → SimState
  | 0 => initState
  | n + 1 => controller (dts n) (oks n) (uss n) (controller_run dts oks uss n)

/-- Concrete run used for evaluation: every tick lasts 10 seconds, every
CSV write succeeds, all RNG samples are 0. -/
def runCE (n : ℕ) : SimState :=
  controller_run (fun _ => 10) (fun _ => true) (fun _ _ => 0) n

/-- Concrete propeller state used to evaluate the blade-dynamics update. -/
noncomputable def rectC2 : Propeller :=
  { rotation_z := 800, pitch := 45, angular_v := 20, old_rotation_z := 0,
    mass := 5, total_vertical_impulse := 0 }

/-- Concrete particle slightly beyond the 5.0 wall but inside 5.1. -/
noncomputable def partC4 : Particle := ⟨⟨5.05, 0, 0⟩, ⟨1, 2, 3⟩, 5⟩

/-- Concrete pair of particles 0.1 apart (colliding). -/
noncomputable def partA : Particle := ⟨⟨0, 0, 0⟩, ⟨1, 2, 3⟩, 5⟩

/-- Second member of the concrete colliding pair. -/
noncomputable def partB : Particle := ⟨⟨0.1, 0, 0⟩, ⟨4, 5, 6⟩, 5⟩

/-- Concrete propeller at pitch 0 for the gate-skip evaluation. -/
noncomputable def propC9 : Propeller :=
  { rotation_z := 0, pitch := 0, angular_v := 20, old_rotation_z := 0,
    mass := 5, total_vertical_impulse := 0 }

/-- Concrete particle at distance 5 from the origin (outside the sweep disk). -/
noncomputable def partC9 : Particle := ⟨⟨5, 0, 0⟩, ⟨1, 1, 1⟩, 5⟩

/-- A concrete rational-model particle. -/
def partQ0 : PartQ := ⟨(0, 0, 0), (0, 0, 0), 5⟩

/-- The all-zero RNG sample stream (a possible rand outcome). -/
def zeroSamples : ℕ → ℚ := fun _ => 0

/-- The all-one-half RNG sample stream. -/
def halfSamples : ℕ → ℚ := fun _ => 1 / 2

/-- A state one tick before the eighth trial boundary of a pitch group. -/
def stateAtSeven : SimState := { initState with total_time := 8, trial := 7 }

/-- Taking square roots preserves an upper bound given by a square. -/
theorem sqrt_le_of_sq_le {x y : ℝ} (hy : 0 ≤ y) (h : x ≤ y ^ 2) : Real.sqrt x ≤ y := by
  calc Real.sqrt x ≤ Real.sqrt (y ^ 2) := Real.sqrt_le_sqrt h
    _ = y := Real.sqrt_sq hy

/-- Taking square roots preserves a lower bound given by a square. -/
theorem le_sqrt_of_sq_le {x y : ℝ} (hx : 0 ≤ x) (h : x ^ 2 ≤ y) : x ≤ Real.sqrt y := by
  calc x = Real.sqrt (x ^ 2) := (Real.sqrt_sq hx).symm
    _ ≤ Real.sqrt y := Real.sqrt_le_sqrt h

/-- The clamped coordinate produced by `reflect_axis` always has absolute
value at most 5. -/
theorem reflect_axis_abs_le (c v : ℝ) : |(reflect_axis c v).1| ≤ 5 := by
  unfold reflect_axis
  split
  · next h =>
    have hc : c ≠ 0 := by
      intro h0
      rw [h0] at h
      simp at h
      linarith
    have habs : abs (c / abs c) = 1 := by
      rw [abs_div, abs_abs, div_self (abs_ne_zero.mpr hc)]
    show abs (c / abs c * 5) ≤ 5
    rw [abs_mul, habs]
    norm_num
  · next h => simpa using le_of_not_lt h

/-- C7: for every input particle, after the Wall Reflector runs every
coordinate of the particle's position has absolute value at most 5 (hence
also at most 5.1). -/
theorem claim_C7 (p : Particle) :
    |(wall_collisions p).translation.x| ≤ 5 ∧ |(wall_collisions p).translation.y| ≤ 5 ∧
      |(wall_collisions p).translation.z| ≤ 5 := by
  refine ⟨?_, ?_, ?_⟩ <;> exact reflect_axis_abs_le _ _

/-- C3 (amended): the reaction-torque stage's change to the blade's angular
velocity equals the vertical (y) component of the cross product of the
horizontal moment arm with the horizontal-only impulse divided by the rod
moment of inertia `I = mass * 16 / 3`, with NO net sign flip: the source
dots the angular impulse with the downward unit vector (0,-1,0) and then
negates the quotient, and the two sign changes cancel.  On any tick the
blade's angular velocity is either untouched or incremented by exactly
this quantity for the struck particle's position and impulse. -/
theorem claim_C3 :
    (∀ (t j : V3) (m : ℝ),
      reaction_delta_angular_v t j m =
        (V3.cross ⟨t.x, 0, t.z⟩ ⟨j.x, 0, j.z⟩).y / ((1 / 3) * m * 16)) ∧
    (∀ (propeller : Propeller) (p : Particle) (u : V3),
      (blade_collisions_step propeller p u).1.angular_v = propeller.angular_v ∨
      (blade_collisions_step propeller p u).1.angular_v = propeller.angular_v +
        reaction_delta_angular_v p.translation (blade_impulse_vector propeller p)
          propeller.mass) := by
  constructor
  · intro t j m
    simp only [reaction_delta_angular_v, V3.cross, V3.dot]
    ring
  · intro propeller p u
    simp only [blade_collisions_step]
    split_ifs <;> simp

/-- C3 counterexample: at moment arm (1,0,0), impulse (0,7,1) and blade
mass 5 the source computes +((r x J).y)/I = -3/80 while the claim's
formula -(r x J).y/I gives +3/80. -/
theorem claim_C3_ce :
    reaction_delta_angular_v ⟨1, 0, 0⟩ ⟨0, 7, 1⟩ 5 = -(3 / 80) ∧
    spec_reaction_delta ⟨1, 0, 0⟩ ⟨0, 7, 1⟩ 5 = 3 / 80 ∧
    reaction_delta_angular_v ⟨1, 0, 0⟩ ⟨0, 7, 1⟩ 5 ≠
      spec_reaction_delta ⟨1, 0, 0⟩ ⟨0, 7, 1⟩ 5 := by
  refine ⟨?_, ?_, ?_⟩ <;>
    norm_num [reaction_delta_angular_v, spec_reaction_delta, V3.cross, V3.dot]

/-- C4 (amended): the Wall Reflector reflects an axis exactly when the
absolute coordinate exceeds 5.0 (not 5.1), clamping the coordinate
sign-preservingly to plus or minus 5.0 and negating the velocity
component, and leaves the axis unchanged otherwise; the three axes are
treated independently, so multiple axes can reflect in one tick. -/
theorem claim_C4 :
    (∀ c v : ℝ,
      (|c| > 5 → reflect_axis c v = ((if 0 < c then (5 : ℝ) else -5), -v)) ∧
      (|c| ≤ 5 → reflect_axis c v = (c, v))) ∧
    (∀ p : Particle,
      (wall_collisions p).translation.x = (reflect_axis p.translation.x p.velocity.x).1 ∧
      (wall_collisions p).velocity.x = (reflect_axis p.translation.x p.velocity.x).2 ∧
      (wall_collisions p).translation.y = (reflect_axis p.translation.y p.velocity.y).1 ∧
      (wall_collisions p).velocity.y = (reflect_axis p.translation.y p.velocity.y).2 ∧
      (wall_collisions p).translation.z = (reflect_axis p.translation.z p.velocity.z).1 ∧
      (wall_collisions p).velocity.z = (reflect_axis p.translation.z p.velocity.z).2) := by
  constructor
  · intro c v
    constructor
    · intro h
      have hc : c ≠ 0 := by
        intro h0; rw [h0] at h; simp at h; linarith
      unfold reflect_axis
      rw [if_pos h]
      rcases lt_or_gt_of_ne hc with hneg | hpos
      · rw [if_neg (not_lt.mpr (le_of_lt hneg)), abs_of_neg hneg,
          show c / -c * 5 = -5 by rw [div_neg, div_self hc]; ring,
          show v * -1 = -v by ring]
      · rw [if_pos hpos, abs_of_pos hpos, div_self hc,
          show (1 : ℝ) * 5 = 5 by norm_num, show v * -1 = -v by ring]
    · intro h
      unfold reflect_axis
      rw [if_neg (not_lt.mpr h)]
  · intro p
    refine ⟨rfl, rfl, rfl, rfl, rfl, rfl⟩

/-- C4 witness: at coordinate 6 the axis reflects to (5, -v); at
coordinate 3 it is untouched. -/
theorem claim_C4_witness :
    |(6 : ℝ)| > 5 ∧ reflect_axis 6 2 = ((5 : ℝ), -2) ∧
    |(3 : ℝ)| ≤ 5 ∧ reflect_axis 3 1 = ((3 : ℝ), 1) := by
  refine ⟨by norm_num, ?_, by norm_num, ((claim_C4.1 3 1).2 (by norm_num))⟩
  have h := (claim_C4.1 6 2).1 (by norm_num)
  rw [if_pos (by norm_num : (0 : ℝ) < 6)] at h
  exact h

/-- C4 counterexample: a particle at coordinate 5.05 is within the claimed
5.1 threshold, yet the source reflects it: the coordinate is clamped to 5
and the velocity component negated, while the claim's 5.1-threshold
reflector leaves it unchanged. -/
theorem claim_C4_ce :
    ¬(|(5.05 : ℝ)| > 5.1) ∧
    (wall_collisions partC4).translation.x = 5 ∧
    (wall_collisions partC4).velocity.x = -1 ∧
    spec_reflect_axis 5.05 1 = ((5.05 : ℝ), 1) := by
  have habs : |(5.05 : ℝ)| = 5.05 := abs_of_pos (by norm_num)
  refine ⟨by rw [habs]; norm_num, ?_, ?_, ?_⟩
  · show (reflect_axis (5.05 : ℝ) 1).1 = 5
    unfold reflect_axis
    rw [if_pos (by rw [habs]; norm_num : |(5.05 : ℝ)| > 5), habs]
    norm_num
  · show (reflect_axis (5.05 : ℝ) 1).2 = -1
    unfold reflect_axis
    rw [if_pos (by rw [habs]; norm_num : |(5.05 : ℝ)| > 5)]
    norm_num
  · unfold spec_reflect_axis
    rw [if_neg (by rw [habs]; norm_num : ¬(|(5.05 : ℝ)| > 5.1))]

/-- A blade-particle step never changes the particle's velocity. -/
theorem blade_step_velocity (propeller : Propeller) (p : Particle) (u : V3) :
    (blade_collisions_step propeller p u).2.velocity = p.velocity := by
  simp only [blade_collisions_step]
  split_ifs <;> rfl

/-- A blade-particle step never changes the blade's pitch. -/
theorem blade_step_pitch (propeller : Propeller) (p : Particle) (u : V3) :
    (blade_collisions_step propeller p u).1.pitch = propeller.pitch := by
  simp only [blade_collisions_step]
  split_ifs <;> rfl

/-- A particle whose height is outside the vertical slab is left entirely
alone by the blade-particle step (the outer gate fails). -/
theorem blade_step_skip (propeller : Propeller) (p : Particle) (u : V3)
    (h : 0.5 * Real.sin (toRad propeller.pitch) ≤ |p.translation.y|) :
    blade_collisions_step propeller p u = (propeller, p) := by
  simp only [blade_collisions_step]
  rw [if_neg (not_lt.mpr h)]

/-- C9: a particle outside both the vertical slab and the radial sweep
disk is returned unchanged (same position, same velocity, not relocated)
by a full Blade Interaction Resolver tick, wherever it sits in the
particle list. -/
theorem claim_C9 (propeller : Propeller) (ps : List Particle) (us : ℕ → V3)
    (n k : ℕ) (a : Particle) (hk : ps[k]? = some a)
    (h1 : 0.5 * Real.sin (toRad propeller.pitch) ≤ |a.translation.y|)
    (h2 : 4 ≤ distance_between a.translation ⟨0, 0, 0⟩) :
    (blade_collisions propeller ps us n).2[k]? = some a := by
  induction ps generalizing propeller n k with
  | nil => simp at hk
  | cons p rest ih =>
    cases k with
    | zero =>
      rw [List.getElem?_cons_zero] at hk
      injection hk with hk
      subst hk
      simp only [blade_collisions]
      rw [blade_step_skip _ _ _ h1]
      exact List.getElem?_cons_zero
    | succ k' =>
      rw [List.getElem?_cons_succ] at hk
      simp only [blade_collisions]
      rw [List.getElem?_cons_succ]
      exact ih _ _ _ hk (by rw [blade_step_pitch]; exact h1)

/-- C9 witness: a pitch-0 blade and a particle at distance 5 from the
origin satisfy both skip gates, and the resolver returns the particle
unchanged. -/
theorem claim_C9_witness :
    0.5 * Real.sin (toRad propC9.pitch) ≤ |partC9.translation.y| ∧
    4 ≤ distance_between partC9.translation ⟨0, 0, 0⟩ ∧
    (blade_collisions propC9 [partC9] (fun _ => ⟨0, 0, 0⟩) 0).2[0]? = some partC9 := by
  have hy : 0.5 * Real.sin (toRad propC9.pitch) ≤ |partC9.translation.y| := by
    show 0.5 * Real.sin (toRad 0) ≤ |(0 : ℝ)|
    rw [show toRad 0 = 0 by rw [toRad]; ring, Real.sin_zero]
    norm_num
  have hd : 4 ≤ distance_between partC9.translation ⟨0, 0, 0⟩ := by
    show (4 : ℝ) ≤ distance_between ⟨5, 0, 0⟩ ⟨0, 0, 0⟩
    unfold distance_between
    have h25 : ((5 : ℝ) - 0) ^ 2 + (0 - 0) ^ 2 + (0 - 0) ^ 2 = 25 := by norm_num
    rw [h25]
    exact le_sqrt_of_sq_le (by norm_num) (by norm_num)
  exact ⟨hy, hd, claim_C9 propC9 [partC9] (fun _ => ⟨0, 0, 0⟩) 0 0 partC9 rfl hy hd⟩

/-- C10: the Blade Interaction Resolver never modifies any particle's
velocity (or mass); on the blade, only the accumulated vertical impulse
and the angular velocity can change (rotation, old rotation, pitch and
mass never do); a struck particle's only change is a relocation of its
position to a fresh `gen_range(-5..5)` sample triple. -/
theorem claim_C10 (propeller : Propeller) (p : Particle) (u : V3) :
    ((blade_collisions_step propeller p u).2.velocity = p.velocity ∧
     (blade_collisions_step propeller p u).2.mass = p.mass ∧
     (blade_collisions_step propeller p u).1.rotation_z = propeller.rotation_z ∧
     (blade_collisions_step propeller p u).1.old_rotation_z = propeller.old_rotation_z ∧
     (blade_collisions_step propeller p u).1.pitch = propeller.pitch ∧
     (blade_collisions_step propeller p u).1.mass = propeller.mass ∧
     ((blade_collisions_step propeller p u).2.translation = p.translation ∨
      (blade_collisions_step propeller p u).2.translation =
        ⟨gen_range (-5) 5 u.x, gen_range (-5) 5 u.y, gen_range (-5) 5 u.z⟩)) ∧
    (∀ (ps : List Particle) (us : ℕ → V3) (n : ℕ),
      (blade_collisions propeller ps us n).2.map Particle.velocity =
        ps.map Particle.velocity) := by
  constructor
  · refine ⟨blade_step_velocity _ _ _, ?_, ?_, ?_, blade_step_pitch _ _ _, ?_, ?_⟩ <;>
      (simp only [blade_collisions_step]; split_ifs <;> simp)
  · intro ps us n
    induction ps generalizing propeller n with
    | nil => simp [blade_collisions]
    | cons q rest ih =>
      simp only [blade_collisions, List.map_cons]
      rw [blade_step_velocity, ih]

/-- In any `gen_range(lo..hi)` model outcome the result is in the
half-open range: at least `lo`, strictly less than `hi`. -/
theorem gen_rangeQ_bounds (lo hi u : ℚ) (hl : lo < hi) (h0 : 0 ≤ u) (h1 : u < 1) :
    lo ≤ gen_rangeQ lo hi u ∧ gen_rangeQ lo hi u < hi := by
  unfold gen_rangeQ
  constructor
  · nlinarith
  · nlinarith

/-- C5 (amended): re-randomization at a trial boundary gives every
particle a position in the HALF-OPEN box, each coordinate at least -5.0
and strictly below 5.0, and a velocity with each component at least -1.0
and strictly below 1.0; the lower bounds are attained for the all-zero
RNG outcome, so the claimed open intervals do not hold. -/
theorem claim_C5 (us : ℕ → ℚ) (hus : ∀ n, 0 ≤ us n ∧ us n < 1)
    (ps : List PartQ) (p : PartQ) (hp : p ∈ rerandomize ps us) :
    (-5 ≤ p.translation.1 ∧ p.translation.1 < 5) ∧
    (-5 ≤ p.translation.2.1 ∧ p.translation.2.1 < 5) ∧
    (-5 ≤ p.translation.2.2 ∧ p.translation.2.2 < 5) ∧
    (-1 ≤ p.velocity.1 ∧ p.velocity.1 < 1) ∧
    (-1 ≤ p.velocity.2.1 ∧ p.velocity.2.1 < 1) ∧
    (-1 ≤ p.velocity.2.2 ∧ p.velocity.2.2 < 1) := by
  induction ps generalizing us with
  | nil => simp [rerandomize] at hp
  | cons q rest ih =>
    rw [rerandomize] at hp
    rcases List.mem_cons.mp hp with hq | hrest
    · subst hq
      refine ⟨?_, ?_, ?_, ?_, ?_, ?_⟩ <;>
        exact gen_rangeQ_bounds _ _ _ (by norm_num) (hus _).1 (hus _).2
    · exact ih (fun n => us (n + 6)) (fun n => hus (n + 6)) hrest

/-- C5 witness: for the all-one-half RNG stream the rerandomized particle
satisfies all twelve half-open bounds. -/
theorem claim_C5_witness :
    (∀ n, 0 ≤ halfSamples n ∧ halfSamples n < 1) ∧
    rerand_particle partQ0 halfSamples ∈ rerandomize [partQ0] halfSamples ∧
    ((-5 ≤ (rerand_particle partQ0 halfSamples).translation.1 ∧
      (rerand_particle partQ0 halfSamples).translation.1 < 5) ∧
     (-5 ≤ (rerand_particle partQ0 halfSamples).translation.2.1 ∧
      (rerand_particle partQ0 halfSamples).translation.2.1 < 5) ∧
     (-5 ≤ (rerand_particle partQ0 halfSamples).translation.2.2 ∧
      (rerand_particle partQ0 halfSamples).translation.2.2 < 5) ∧
     (-1 ≤ (rerand_particle partQ0 halfSamples).velocity.1 ∧
      (rerand_particle partQ0 halfSamples).velocity.1 < 1) ∧
     (-1 ≤ (rerand_particle partQ0 halfSamples).velocity.2.1 ∧
      (rerand_particle partQ0 halfSamples).velocity.2.1 < 1) ∧
     (-1 ≤ (rerand_particle partQ0 halfSamples).velocity.2.2 ∧
      (rerand_particle partQ0 halfSamples).velocity.2.2 < 1)) := by
  have hus : ∀ n, 0 ≤ halfSamples n ∧ halfSamples n < 1 := by
    intro n
    constructor <;> norm_num [halfSamples]
  have hmem : rerand_particle partQ0 halfSamples ∈ rerandomize [partQ0] halfSamples := by
    rw [rerandomize]
    exact List.mem_cons_self _ _
  exact ⟨hus, hmem, claim_C5 halfSamples hus [partQ0] _ hmem⟩

/-- C5 counterexample: the all-zero RNG stream is a possible outcome of
the half-open `gen_range(-5.0..5.0)` sampler, and it re-randomizes a
particle to x-coordinate exactly -5.0, which is NOT strictly inside the
open interval from -5.0 to 5.0 as the claim requires. -/
theorem claim_C5_ce :
    (0 ≤ zeroSamples 0 ∧ zeroSamples 0 < 1) ∧
    rerand_particle partQ0 zeroSamples ∈ rerandomize [partQ0] zeroSamples ∧
    (rerand_particle partQ0 zeroSamples).translation.1 = -5 ∧
    ¬(-5 < (rerand_particle partQ0 zeroSamples).translation.1) := by
  refine ⟨⟨by norm_num [zeroSamples], by norm_num [zeroSamples]⟩, ?_, ?_, ?_⟩
  · rw [rerandomize]
    exact List.mem_cons_self _ _
  · norm_num [rerand_particle, gen_rangeQ, partQ0, zeroSamples]
  · norm_num [rerand_particle, gen_rangeQ, partQ0, zeroSamples]

/-- Replacing the `j`-th element and re-consing the old value permutes. -/
theorem cons_set_perm {α : Type} (t : List α) (j : ℕ) (x b : α)
    (hb : t[j]? = some b) : (b :: t.set j x).Perm (x :: t) := by
  induction t generalizing j with
  | nil => simp at hb
  | cons y r ih =>
    cases j with
    | zero =>
      rw [List.getElem?_cons_zero] at hb
      injection hb with hb
      subst hb
      exact List.Perm.swap x y r
    | succ k =>
      rw [List.getElem?_cons_succ] at hb
      show (b :: y :: r.set k x).Perm (x :: y :: r)
      exact ((List.Perm.swap y b (r.set k x)).trans
        ((ih k hb).cons y)).trans (List.Perm.swap x y r)

/-- Writing each of two distinct positions with the other's value is a
permutation (the in-place swap of the velocity exchange). -/
theorem set_set_swap_perm {α : Type} (l : List α) (i j : ℕ) (a b : α)
    (hij : i ≠ j) (ha : l[i]? = some a) (hb : l[j]? = some b) :
    ((l.set i b).set j a).Perm l := by
  induction l generalizing i j with
  | nil => simp at ha
  | cons x t ih =>
    cases i with
    | zero =>
      cases j with
      | zero => exact absurd rfl hij
      | succ m =>
        rw [List.getElem?_cons_zero] at ha
        injection ha with ha
        rw [List.getElem?_cons_succ] at hb
        subst ha
        exact cons_set_perm t m x b hb
    | succ k =>
      cases j with
      | zero =>
        rw [List.getElem?_cons_succ] at ha
        rw [List.getElem?_cons_zero] at hb
        injection hb with hb
        subst hb
        exact cons_set_perm t k x a ha
      | succ m =>
        rw [List.getElem?_cons_succ] at ha
        rw [List.getElem?_cons_succ] at hb
        show (x :: (t.set k b).set m a).Perm (x :: t)
        exact (ih k m (by omega) ha hb).cons x

/-- One pair resolution never changes the multiset of velocities. -/
theorem velocityMultiset_pairStep (dt : ℝ) (s : List Particle) (i j : ℕ)
    (hij : i ≠ j) : velocityMultiset (pairStep dt s i j) = velocityMultiset s := by
  rcases hi : s[i]? with _ | a
  · simp [pairStep, hi]
  · rcases hj : s[j]? with _ | b
    · simp [pairStep, hi, hj]
    · simp only [pairStep, hi, hj]
      split
      · unfold velocityMultiset
        rw [List.map_set, List.map_set]
        refine Multiset.coe_eq_coe.mpr
          (set_set_swap_perm _ i j a.velocity b.velocity hij ?_ ?_)
        · rw [List.getElem?_map, hi]
          rfl
        · rw [List.getElem?_map, hj]
          rfl
      · rfl

/-- Folding any velocity-multiset-preserving update preserves it. -/
theorem foldl_velocityMultiset (f : List Particle → ℕ → List Particle)
    (hf : ∀ acc k, velocityMultiset (f acc k) = velocityMultiset acc) :
    ∀ (L : List ℕ) (acc : List Particle),
      velocityMultiset (L.foldl f acc) = velocityMultiset acc := by
  intro L
  induction L with
  | nil => intro acc; rfl
  | cons a L ih =>
    intro acc
    rw [List.foldl_cons, ih, hf]

/-- C6: a pair of particles within 0.2 of each other is resolved by
pushing each back along its own pre-exchange velocity by velocity * dt and
swapping the two velocity vectors; one full `compare_particles` tick
preserves the multiset of all particle velocity vectors; and the resolved
pair conserves its summed momentum exactly when the two masses agree (as
they do for every spawned particle, all of mass 5). -/
theorem claim_C6 :
    (∀ (dt : ℝ) (s : List Particle) (i j : ℕ) (a b : Particle),
      s[i]? = some a → s[j]? = some b →
      distance_between a.translation b.translation ≤ 0.2 →
      pairStep dt s i j =
        (s.set i ⟨pushed_translation a dt, b.velocity, a.mass⟩).set j
          ⟨pushed_translation b dt, a.velocity, b.mass⟩) ∧
    (∀ (dt : ℝ) (s : List Particle),
      velocityMultiset (compare_particles dt s) = velocityMultiset s) ∧
    (∀ (dt : ℝ) (a b : Particle), a.mass = b.mass →
      distance_between a.translation b.translation ≤ 0.2 →
      V3.addv (momentum ⟨pushed_translation a dt, b.velocity, a.mass⟩)
          (momentum ⟨pushed_translation b dt, a.velocity, b.mass⟩) =
        V3.addv (momentum a) (momentum b)) := by
  refine ⟨?_, ?_, ?_⟩
  · intro dt s i j a b ha hb hd
    simp only [pairStep, ha, hb]
    rw [if_pos hd]
  · intro dt s
    unfold compare_particles
    refine foldl_velocityMultiset _ ?_ _ _
    intro acc i
    refine foldl_velocityMultiset _ ?_ _ _
    intro acc2 j
    exact velocityMultiset_pairStep dt acc2 i (i + 1 + j) (by omega)
  · intro dt a b hm hd
    simp only [momentum, V3.smul, V3.addv, V3.mk.injEq]
    rw [hm]
    refine ⟨by ring, by ring, by ring⟩

/-- C6 witness: two concrete particles 0.1 apart collide; their resolved
pair conserves summed momentum, and a full tick on the two-particle world
preserves the velocity multiset. -/
theorem claim_C6_witness :
    distance_between partA.translation partB.translation ≤ 0.2 ∧
    partA.mass = partB.mass ∧
    V3.addv (momentum ⟨pushed_translation partA 1, partB.velocity, partA.mass⟩)
        (momentum ⟨pushed_translation partB 1, partA.velocity, partB.mass⟩) =
      V3.addv (momentum partA) (momentum partB) ∧
    velocityMultiset (compare_particles 1 [partA, partB]) =
      velocityMultiset [partA, partB] := by
  have hd : distance_between partA.translation partB.translation ≤ 0.2 := by
    show distance_between ⟨0, 0, 0⟩ ⟨0.1, 0, 0⟩ ≤ 0.2
    unfold distance_between
    rw [show ((0 : ℝ) - 0.1) ^ 2 + (0 - 0) ^ 2 + (0 - 0) ^ 2 = 0.01 by norm_num]
    exact sqrt_le_of_sq_le (by norm_num) (by norm_num)
  exact ⟨hd, rfl, claim_C6.2.2 1 partA partB rfl hd, claim_C6.2.1 1 [partA, partB]⟩

/-- An exited state is absorbing: the controller processes no further
ticks after `std::process::exit(0)`. -/
theorem controller_exited_absorb (dt : ℚ) (ok : Bool) (us : ℕ → ℚ) (s : SimState)
    (h : s.exited = true) : controller dt ok us s = s := by
  unfold controller
  rw [if_pos h]

/-- Each controller tick either keeps the pitch or raises it by exactly 5. -/
theorem controller_pitch_step (dt : ℚ) (ok : Bool) (us : ℕ → ℚ) (s : SimState) :
    (controller dt ok us s).prop.pitch = s.prop.pitch ∨
    (controller dt ok us s).prop.pitch = s.prop.pitch + 5 := by
  simp only [controller]
  split_ifs <;> simp

/-- The sweep invariant of the controller is preserved by one tick with a
successful CSV write: the pitch always equals 45 plus 5 per logged row,
at most 8 rows are ever logged, and the process has exited exactly when
the 8th row has been written. -/
theorem controller_inv_step (dt : ℚ) (us : ℕ → ℚ) (s : SimState)
    (h1 : s.prop.pitch = 45 + 5 * (s.log.length : ℚ))
    (h2 : s.log.length ≤ 8)
    (h3 : s.exited = true ↔ s.log.length = 8) :
    (controller dt true us s).prop.pitch =
      45 + 5 * ((controller dt true us s).log.length : ℚ) ∧
    (controller dt true us s).log.length ≤ 8 ∧
    ((controller dt true us s).exited = true ↔
      (controller dt true us s).log.length = 8) := by
  by_cases hex : s.exited = true
  · rw [controller_exited_absorb dt true us s hex]
    exact ⟨h1, h2, h3⟩
  · have hex' : s.exited = false := by
      cases h : s.exited
      · rfl
      · exact absurd h hex
    have hL : s.log.length ≤ 7 := by
      rcases Nat.lt_or_ge s.log.length 8 with h | h
      · omega
      · exact absurd (h3.mpr (by omega)) hex
    unfold controller
    rw [if_neg (by rw [hex']; simp)]
    by_cases hb : 10 ≤ s.total_time + dt
    · rw [if_pos hb]
      by_cases ht : s.trial + 1 = 8
      · rw [if_pos ht]
        by_cases hp : s.prop.pitch + 5 = 85
        · rw [if_pos hp]
          have hL7 : s.log.length = 7 := by
            have : (s.log.length : ℚ) = 7 := by linarith [h1, hp]
            exact_mod_cast this
          refine ⟨?_, ?_, ?_⟩
          · simp [List.length_append, h1, hL7]
            norm_num
          · simp [List.length_append, hL7]
          · simp [List.length_append, hL7]
        · rw [if_neg hp]
          have hL7 : s.log.length ≠ 7 := by
            intro hL7
            exact hp (by rw [h1, hL7]; norm_num)
          refine ⟨?_, ?_, ?_⟩
          · simp [List.length_append, h1]
            ring
          · simp [List.length_append]
            omega
          · simp [List.length_append, hex']
            omega
      · rw [if_neg ht]
        exact ⟨h1, h2, by rw [hex'] at h3 ⊢; exact h3⟩
    · rw [if_neg hb]
      exact ⟨h1, h2, by rw [hex'] at h3 ⊢; exact h3⟩

/-- The sweep invariant holds along every run with successful CSV writes. -/
theorem controller_inv_run (dts : ℕ → ℚ) (uss : ℕ → ℕ → ℚ) (n : ℕ) :
    (controller_run dts (fun _ => true) uss n).prop.pitch =
      45 + 5 * ((controller_run dts (fun _ => true) uss n).log.length : ℚ) ∧
    (controller_run dts (fun _ => true) uss n).log.length ≤ 8 ∧
    ((controller_run dts (fun _ => true) uss n).exited = true ↔
      (controller_run dts (fun _ => true) uss n).log.length = 8) := by
  induction n with
  | zero =>
    refine ⟨by norm_num [controller_run, initState], by simp [controller_run, initState], ?_⟩
    simp [controller_run, initState]
  | succ n ih =>
    exact controller_inv_step (dts n) (uss n) _ ih.1 ih.2.1 ih.2.2

/-- C1 (amended): along any run in which every CSV write succeeds, the
pitch always equals 45 plus 5 for each row already written, so it starts
at 45 and only ever increases in exactly 5-degree steps, one step per
8-trial group's row; at most 8 rows are written; the process terminates
normally exactly once, immediately after the row whose increment brings
the pitch to 85 (the 8th row, measured at pitch 80), and once exited it
processes no further ticks.  In particular pitch 85 itself is never
measured: only the 8 pitches 45,50,...,80 produce rows. -/
theorem claim_C1 (dts : ℕ → ℚ) (uss : ℕ → ℕ → ℚ) (n : ℕ) :
    (controller_run dts (fun _ => true) uss n).prop.pitch =
      45 + 5 * ((controller_run dts (fun _ => true) uss n).log.length : ℚ) ∧
    (controller_run dts (fun _ => true) uss n).log.length ≤ 8 ∧
    ((controller_run dts (fun _ => true) uss n).exited = true ↔
      (controller_run dts (fun _ => true) uss n).log.length = 8) ∧
    ((controller_run dts (fun _ => true) uss n).exited = true ↔
      (controller_run dts (fun _ => true) uss n).prop.pitch = 85) ∧
    ((controller_run dts (fun _ => true) uss (n + 1)).prop.pitch =
        (controller_run dts (fun _ => true) uss n).prop.pitch ∨
      (controller_run dts (fun _ => true) uss (n + 1)).prop.pitch =
        (controller_run dts (fun _ => true) uss n).prop.pitch + 5) ∧
    ((controller_run dts (fun _ => true) uss n).exited = true →
      controller_run dts (fun _ => true) uss (n + 1) =
        controller_run dts (fun _ => true) uss n) := by
  obtain ⟨h1, h2, h3⟩ := controller_inv_run dts uss n
  refine ⟨h1, h2, h3, ?_, ?_, ?_⟩
  · constructor
    · intro he
      rw [h1, h3.mp he]
      norm_num
    · intro hp
      apply h3.mpr
      rw [h1] at hp
      have hc : ((controller_run dts (fun _ => true) uss n).log.length : ℚ) = 8 := by
        linarith
      exact_mod_cast hc
  · exact controller_pitch_step (dts n) true (uss n) _
  · intro he
    exact controller_exited_absorb (dts n) true (uss n) _ he

/-- C1 witness: in the concrete 10-second-tick run the process has exited
at tick 64 and the ticks after that change nothing. -/
theorem claim_C1_witness :
    (runCE 64).exited = true ∧ runCE 65 = runCE 64 := by
  have he : (runCE 64).exited = true := by
    norm_num [runCE, controller_run, controller, initState, rerandomize]
  exact ⟨he, (claim_C1 (fun _ => 10) (fun _ _ => 0) 64).2.2.2.2.2 he⟩

/-- C1 counterexample: running the controller to termination with
10-second ticks writes exactly 8 CSV rows, not 9: at tick 63 (after 7
rows) the pitch still under measurement is 80, and the 64th tick writes
the 8th and final row, raises the pitch to 85 and exits, so no row is
ever measured at pitch 85. -/
theorem claim_C1_ce :
    (runCE 63).prop.pitch = 80 ∧ (runCE 63).log.length = 7 ∧
    (runCE 63).exited = false ∧ (runCE 64).prop.pitch = 85 ∧
    (runCE 64).log.length = 8 ∧ (runCE 64).exited = true := by
  norm_num [runCE, controller_run, controller, initState, rerandomize]

/-- C2 (amended): on every Blade Dynamics tick the rotation is first
reduced by 360 once when it is at least 360; the angular velocity is then
updated by `angular_velocity += (50000 * dt) / (I * angular_velocity)` --
the source converts `I * radians(angular_velocity)` back to degrees, so
the radians conversion cancels and the effective denominator uses the
angular velocity in degrees/second; the reduced rotation is stored as the
old rotation and the rotation advances by the new angular velocity times
dt; pitch, mass and the accumulated impulse are untouched. -/
theorem claim_C2 (rect : Propeller) (dt : ℝ) :
    (update_rectangle_rotation rect dt).angular_v =
      rect.angular_v + (50000 * dt) / (((1 / 3) * rect.mass * 16) * rect.angular_v) ∧
    (update_rectangle_rotation rect dt).old_rotation_z =
      (if rect.rotation_z ≥ 360 then rect.rotation_z - 360 else rect.rotation_z) ∧
    (update_rectangle_rotation rect dt).rotation_z =
      (if rect.rotation_z ≥ 360 then rect.rotation_z - 360 else rect.rotation_z) +
        (update_rectangle_rotation rect dt).angular_v * dt ∧
    (update_rectangle_rotation rect dt).pitch = rect.pitch ∧
    (update_rectangle_rotation rect dt).mass = rect.mass ∧
    (update_rectangle_rotation rect dt).total_vertical_impulse =
      rect.total_vertical_impulse := by
  have hden : toDeg (((1 / 3) * rect.mass * 16) * toRad rect.angular_v) =
      ((1 / 3) * rect.mass * 16) * rect.angular_v := by
    unfold toDeg toRad
    field_simp
    ring
  refine ⟨?_, rfl, rfl, rfl, rfl, rfl⟩
  show rect.angular_v +
      (50000 * dt) / toDeg (((1 / 3) * rect.mass * 16) * toRad rect.angular_v) = _
  rw [hden]

/-- C2 counterexample: at angular velocity 20 deg/s, mass 5, dt = 1 the
source update gives 20 + 50000/(80/3 * 20) = 113.75, while the claim's
denominator `I * radians(angular_velocity)` gives 20 + 16875/pi, a
different number; and a rotation of 800 degrees is only reduced to 440,
which is not inside the claimed wrapped range [0, 360). -/
theorem claim_C2_ce :
    (update_rectangle_rotation rectC2 1).angular_v ≠ spec_update_angular_v rectC2 1 ∧
    (update_rectangle_rotation rectC2 1).old_rotation_z = 440 ∧
    ¬((update_rectangle_rotation rectC2 1).old_rotation_z < 360) := by
  have hpi := Real.pi_pos
  have hpi4 := Real.pi_le_four
  have hne : Real.pi ≠ 0 := ne_of_gt hpi
  have hav : (update_rectangle_rotation rectC2 1).angular_v = 20 + 375 / 4 := by
    show rectC2.angular_v +
        (50000 * 1) / toDeg (((1 / 3) * rectC2.mass * 16) * toRad rectC2.angular_v) =
      20 + 375 / 4
    unfold toDeg toRad rectC2
    field_simp
    ring
  have hold : (update_rectangle_rotation rectC2 1).old_rotation_z = 440 := by
    show (if rectC2.rotation_z ≥ 360 then rectC2.rotation_z - 360
      else rectC2.rotation_z) = 440
    unfold rectC2
    rw [if_pos (by norm_num)]
    norm_num
  refine ⟨?_, hold, by rw [hold]; norm_num⟩
  rw [hav]
  have hspec : spec_update_angular_v rectC2 1 = 20 + 16875 / Real.pi := by
    unfold spec_update_angular_v toRad
    show (20 : ℝ) + 50000 * 1 / ((1 / 3) * 5 * 16 * (20 * (Real.pi / 180))) =
      20 + 16875 / Real.pi
    have hne : Real.pi ≠ 0 := ne_of_gt hpi
    field_simp
    ring
  rw [hspec]
  intro h
  have h2 : (375 : ℝ) / 4 = 16875 / Real.pi := by linarith
  rw [div_eq_div_iff (by norm_num) (by positivity)] at h2
  nlinarith

/-- C8: when the CSV write at an 8-trial row boundary fails, the error is
reported (the error count rises by one, the row is dropped and never
retried), and every other effect agrees exactly with the success case:
the pitch still rises by 5, the data buffer is cleared, the trial index
resets to 0, the particles are re-randomized identically, and the
terminal-pitch check still runs with the same outcome; the failure is not
fatal. -/
theorem claim_C8 (dt : ℚ) (us : ℕ → ℚ) (s : SimState)
    (hex : s.exited = false) (hb : 10 ≤ s.total_time + dt) (ht : s.trial + 1 = 8) :
    (controller dt false us s).errors = s.errors + 1 ∧
    (controller dt false us s).log = s.log ∧
    (controller dt true us s).errors = s.errors ∧
    (controller dt true us s).log =
      s.log ++ [(s.data ++ [s.prop.total_vertical_impulse]) ++
        [(s.data ++ [s.prop.total_vertical_impulse]).foldl (fun acc d => acc + d) 0 / 8]] ∧
    (controller dt false us s).prop = (controller dt true us s).prop ∧
    (controller dt false us s).prop.pitch = s.prop.pitch + 5 ∧
    (controller dt false us s).data = [] ∧
    (controller dt false us s).trial = 0 ∧
    (controller dt false us s).exited = (controller dt true us s).exited ∧
    (controller dt false us s).particles = (controller dt true us s).particles ∧
    (controller dt false us s).total_time = (controller dt true us s).total_time := by
  simp only [controller, hex]
  simp only [if_pos hb, if_pos ht]
  by_cases hp : s.prop.pitch + 5 = 85
  · simp only [if_pos hp]
    simp
  · simp only [if_neg hp]
    simp

/-- C8 witness: from a concrete state with trial index 7 and 8 elapsed
seconds, a 2-second tick crosses the boundary; with a failing CSV write
the error count rises and all other effects match the success case. -/
theorem claim_C8_witness :
    (controller 2 false zeroSamples stateAtSeven).errors = stateAtSeven.errors + 1 ∧
    (controller 2 false zeroSamples stateAtSeven).log = stateAtSeven.log ∧
    (controller 2 true zeroSamples stateAtSeven).errors = stateAtSeven.errors ∧
    (controller 2 true zeroSamples stateAtSeven).log =
      stateAtSeven.log ++ [(stateAtSeven.data ++
          [stateAtSeven.prop.total_vertical_impulse]) ++
        [(stateAtSeven.data ++ [stateAtSeven.prop.total_vertical_impulse]).foldl
            (fun acc d => acc + d) 0 / 8]] ∧
    (controller 2 false zeroSamples stateAtSeven).prop =
      (controller 2 true zeroSamples stateAtSeven).prop ∧
    (controller 2 false zeroSamples stateAtSeven).prop.pitch =
      stateAtSeven.prop.pitch + 5 ∧
    (controller 2 false zeroSamples stateAtSeven).data = [] ∧
    (controller 2 false zeroSamples stateAtSeven).trial = 0 ∧
    (controller 2 false zeroSamples stateAtSeven).exited =
      (controller 2 true zeroSamples stateAtSeven).exited ∧
    (controller 2 false zeroSamples stateAtSeven).particles =
      (controller 2 true zeroSamples stateAtSeven).particles ∧
    (controller 2 false zeroSamples stateAtSeven).total_time =
      (controller 2 true zeroSamples stateAtSeven).total_time :=
  claim_C8 2 zeroSamples stateAtSeven rfl
    (by norm_num [stateAtSeven, initState]) rfl
